import Mathlib

/-!
Verification development for the Auto-Investment-total repository.

The repository ships a Next.js frontend (`frontend/src/...`), configuration
templates (`resource/application.yml.bak`) and container plumbing; the Python
trading core (`trading_package`: RateGate, OperationLocks, MarketWorker,
WorkerPool, PortfolioLedger) is described by the design documents and its
README but its implementation files are not present, so those components are
modelled from the spec, with doc comments saying so.  Frontend components
(zustand store actions, the ActiveTrades socket handler, SocketService,
signal-strength classification in MarketInfo/MarketOverview, strategy
thresholds in application.yml.bak) are embedded from the source files.
-/

/-! ## Frontend store data (from `frontend/src/types/socket` usages) -/

/-- Market datum as used by the store and dashboard components:
`market`, `current_price`, `change_rate`, `acc_trade_volume_24h`,
`signal_strength`. -/
structure MarketData where
  market : String
  current_price : ℚ
  change_rate : ℚ
  acc_trade_volume_24h : ℚ
  signal_strength : ℚ
  deriving DecidableEq, Repr

/-- Trade datum as used by `ActiveTrades` and the store:
`id`, `market`, `price`, `type` and `status` (status strings seen in the
source: `buying`, `selling`, `holding`, `completed`, `failed`). -/
structure TradeData where
  id : String
  market : String
  price : ℚ
  ty : String
  status : String
  deriving DecidableEq, Repr

/-! ## Store actions (from `frontend/src/store/index.ts`) -/

/-- `updateMarket` of the zustand store:
`markets.map(m => m.market === market.market ? market : m)`. -/
def updateMarket (markets : List MarketData) (market : MarketData) : List MarketData :=
  markets.map fun m => if m.market = market.market then market else m

/-- `updateTrade` of the zustand store:
`activeTrades.map(t => t.id === trade.id ? trade : t)`. -/
def updateTrade (activeTrades : List TradeData) (trade : TradeData) : List TradeData :=
  activeTrades.map fun t => if t.id = trade.id then trade else t

/-- `addTrade` of the zustand store: `[...state.activeTrades, trade]`. -/
def addTrade (activeTrades : List TradeData) (trade : TradeData) : List TradeData :=
  activeTrades ++ [trade]

/-- `removeTrade` of the zustand store:
`activeTrades.filter(t => t.id !== tradeId)`. -/
def removeTrade (activeTrades : List TradeData) (tradeId : String) : List TradeData :=
  activeTrades.filter fun t => t.id ≠ tradeId

/-- The `useTradeData` handler of `ActiveTrades` (in `components/Navbar.tsx`):
completed or failed trades are removed, known ids are updated, new ids are
appended. -/
def handleTradeData (activeTrades : List TradeData) (data : TradeData) : List TradeData :=
  if data.status = "completed" ∨ data.status = "failed" then
    removeTrade activeTrades data.id
  else if activeTrades.any fun t => t.id = data.id then
    updateTrade activeTrades data
  else
    addTrade activeTrades data

/-! ## Signal-strength classification
(from `MarketInfo` in `src/unnamed/part_005` and `MarketOverview` in
`components/dashboard/TradingChart.tsx`) -/

/-- `MarketInfo` subtext:
`signal_strength >= 0.7 ? '강력 매수' : signal_strength <= 0.3 ? '강력 매도' : '중립'`. -/
def signalLabel (signal_strength : ℚ) : String :=
  if 7/10 ≤ signal_strength then "강력 매수"
  else if signal_strength ≤ 3/10 then "강력 매도"
  else "중립"

/-- `MarketOverview` progress colour:
`signal_strength >= 0.7 ? 'green' : signal_strength <= 0.3 ? 'red' : 'yellow'`. -/
def signalColor (signal_strength : ℚ) : String :=
  if 7/10 ≤ signal_strength then "green"
  else if signal_strength ≤ 3/10 then "red"
  else "yellow"

/-! ## Strategy configuration (from `resource/application.yml.bak`) -/

/-- Strategy thresholds. -/
structure StrategyConfig where
  buy_threshold : ℚ
  sell_threshold : ℚ
  deriving DecidableEq, Repr

/-- The configured defaults of `application.yml.bak`:
`buy_threshold: 0.65`, `sell_threshold: 0.35`. -/
def defaultStrategy : StrategyConfig :=
  { buy_threshold := 65/100, sell_threshold := 35/100 }

/-! ## SocketService (from `components/trading/OrderBook.tsx`, second unit) -/

/-- Options passed to `io(url, …)` by `SocketService.connect`. -/
structure SocketOptions where
  reconnection : Bool
  reconnectionAttempts : ℕ
  reconnectionDelay : ℕ
  deriving DecidableEq, Repr

/-- A connected socket: the url it was opened with and its options. -/
structure SocketConn where
  url : String
  opts : SocketOptions
  deriving DecidableEq, Repr

/-- The mutable state of the `SocketService` singleton: the optional socket
and the subscribed message-handler keys. -/
structure SocketServiceState where
  socket : Option SocketConn
  handlerKeys : List String
  deriving DecidableEq, Repr

/-- `SocketService.connect`: if a socket already exists it warns and returns
without touching state; otherwise it opens a socket with
`{reconnection: true, reconnectionAttempts: 5, reconnectionDelay: 1000}`. -/
def SocketService.connect (s : SocketServiceState) (url : String) : SocketServiceState :=
  match s.socket with
  | some _ => s
  | none =>
      { s with socket := some { url := url, opts := ⟨true, 5, 1000⟩ } }

/-! ## Trading core, modelled from the spec
The `trading_package` backend (its directories `trading/`, `strategy/`,
`trade_market_api/` …) is listed by `trading_package/README.md` but its
implementation files are not in the repository, so the components below are
modelled from the design document. -/

/-- Order side. -/
inductive Side where
  | buy
  | sell
  deriving DecidableEq, Repr

/-- Modelled from the spec: `PortfolioEntry` of the absent PortfolioLedger —
`{market, quantity_held, average_buy_price}`. -/
structure PortfolioEntry where
  market : String
  quantity_held : ℚ
  average_buy_price : ℚ
  deriving DecidableEq, Repr

/-- Modelled from the spec: a fill handed to `applyFill` — the side, price
and quantity of a terminal order. -/
structure Fill where
  side : Side
  price : ℚ
  quantity : ℚ
  deriving DecidableEq, Repr

/-- Modelled from the spec: ledger failure kinds — `InsufficientHoldings`
is the hard failure raised when a sell would drive quantity below zero. -/
inductive LedgerError where
  | insufficientHoldings
  deriving DecidableEq, Repr

/-- Modelled from the spec: `PortfolioLedger.applyFill` of the absent
backend — recomputes quantity and average price on a buy; on a sell, fails
with `InsufficientHoldings` when the sell quantity exceeds the held
quantity, otherwise decreases the held quantity. -/
def applyFill (e : PortfolioEntry) (f : Fill) : Except LedgerError PortfolioEntry :=
  match f.side with
  | .buy =>
      .ok { e with
            quantity_held := e.quantity_held + f.quantity
            average_buy_price :=
              if e.quantity_held + f.quantity = 0 then e.average_buy_price
              else (e.average_buy_price * e.quantity_held + f.price * f.quantity)
                     / (e.quantity_held + f.quantity) }
  | .sell =>
      if e.quantity_held < f.quantity then .error .insufficientHoldings
      else .ok { e with quantity_held := e.quantity_held - f.quantity }

/-- One ledger step: a failing `applyFill` leaves the entry unchanged. -/
def fillStep (e : PortfolioEntry) (f : Fill) : PortfolioEntry :=
  match applyFill e f with
  | .ok e2 => e2
  | .error _ => e

/-- The entry reached after a sequence of fills, failed fills skipped. -/
def applyFills (e : PortfolioEntry) (fs : List Fill) : PortfolioEntry :=
  fs.foldl fillStep e

/-- Modelled from the spec: `RateBudget` of the absent RateGate —
`{window_start, calls_in_window, max_calls_per_window}`. -/
structure RateBudget where
  window_start : ℕ
  calls_in_window : ℕ
  max_calls_per_window : ℕ
  deriving DecidableEq, Repr

/-- Modelled from the spec: one admission attempt of the absent RateGate's
token-bucket/rolling-window budget taken at time `now` with window length
`W` — when the window has elapsed, the window restarts empty; a call is
admitted only while `calls_in_window < max_calls_per_window`.  Concurrent
callers are serialized by the gate, so an arbitrary interleaving is an
arbitrary sequence of such attempts. -/
def tryAdmit (W : ℕ) (b : RateBudget) (now : ℕ) : Bool × RateBudget :=
  let b1 := if b.window_start + W ≤ now then
              { b with window_start := now, calls_in_window := 0 }
            else b
  if b1.calls_in_window < b1.max_calls_per_window then
    (true, { b1 with calls_in_window := b1.calls_in_window + 1 })
  else
    (false, b1)

/-- The budget reached after a sequence of admission attempts at the given
times. -/
def runAdmits (W : ℕ) (b : RateBudget) (times : List ℕ) : RateBudget :=
  times.foldl (fun s t => (tryAdmit W s t).2) b

/-- Result of one attempt of an operation run under `RateGate.execute`. -/
inductive AttemptResult where
  | success
  | retryableErr
  | nonRetryableErr
  deriving DecidableEq, Repr

/-- Overall result of `RateGate.execute`. -/
inductive ExecResult where
  | ok
  | apiExhausted
  | failed
  deriving DecidableEq, Repr

/-- Modelled from the spec: the retry loop of the absent
`RateGate.execute` — `op k` is the outcome of the `k`-th attempt; at most
`fuel` attempts remain; a retryable failure sleeps 1 second and retries, a
non-retryable failure propagates immediately, and exhaustion is tagged
`api_exhausted`.  Returns (attempts made, delays slept between attempts,
result). -/
def executeGo (op : ℕ → AttemptResult) (k : ℕ) : ℕ → ℕ × List ℕ × ExecResult
  | 0 => (0, [], .apiExhausted)
  | fuel + 1 =>
      match op k with
      | .success => (1, [], .ok)
      | .nonRetryableErr => (1, [], .failed)
      | .retryableErr =>
          if fuel = 0 then (1, [], .apiExhausted)
          else
            let r := executeGo op (k + 1) fuel
            (r.1 + 1, 1 :: r.2.1, r.2.2)

/-- Modelled from the spec: `RateGate.execute`'s retry policy — up to 3
attempts total with a fixed 1-second delay between attempts. -/
def execute (op : ℕ → AttemptResult) : ℕ × List ℕ × ExecResult :=
  executeGo op 1 3

/-- The three named operation locks: `buy`, `sell`, `candle_data`. -/
inductive LockCat where
  | buy
  | sell
  | candleData
  deriving DecidableEq, Repr

/-- Exit path of a protected section: normal return, thrown error, or
cancellation. -/
inductive SectionExit where
  | success
  | failure
  | cancelled
  deriving DecidableEq, Repr

/-- Modelled from the spec: shared lock state of the absent
OperationLocks — which named lock is held, and how many acquisitions and
releases have happened overall. -/
structure LockState where
  held : LockCat → Bool
  acquired : ℕ
  released : ℕ

/-- Modelled from the spec: acquiring a named operation lock. -/
def acquireLock (s : LockState) (c : LockCat) : LockState :=
  { held := fun c2 => if c2 = c then true else s.held c2
    acquired := s.acquired + 1
    released := s.released }

/-- Modelled from the spec: releasing a named operation lock. -/
def releaseLock (s : LockState) (c : LockCat) : LockState :=
  { held := fun c2 => if c2 = c then false else s.held c2
    acquired := s.acquired
    released := s.released + 1 }

/-- Modelled from the spec: `OperationLocks.withLock` — scoped acquisition
with guaranteed release on every exit path (success, error, cancellation)
of the protected section, whose exit kind is `exit`. -/
def withLock (s : LockState) (c : LockCat) (exit : SectionExit) :
    LockState × SectionExit :=
  (releaseLock (acquireLock s c) c, exit)

/-- Modelled from the spec: the protected sections still to finish when
`WorkerPool.stop()` is called are drained to completion; each runs through
`withLock`. -/
def runSections (s : LockState) (secs : List (LockCat × SectionExit)) : LockState :=
  secs.foldl (fun st p => (withLock st p.1 p.2).1) s

/-- Position held for a market when the deciding step runs: none, partial,
or full. -/
inductive PositionState where
  | noPos
  | partialPos
  | fullPos
  deriving DecidableEq, Repr

/-- Modelled from the spec: the deciding step of the absent MarketWorker —
`strength ≥ buy_threshold` with no/partial position yields a buy intent;
`strength ≤ sell_threshold` with a position yields a sell intent; otherwise
no intent and the worker returns to idle. -/
def decideIntent (cfg : StrategyConfig) (strength : ℚ) (pos : PositionState) :
    Option Side :=
  if cfg.buy_threshold ≤ strength ∧ (pos = .noPos ∨ pos = .partialPos) then
    some .buy
  else if strength ≤ cfg.sell_threshold ∧ pos ≠ .noPos then
    some .sell
  else
    none

/-- Modelled from the spec: the absent WorkerPool's running set — `start` on
one market spawns its worker unless that market is already running, in
which case it is a no-op. -/
structure WorkerPool where
  running : List String
  deriving DecidableEq, Repr

/-- Modelled from the spec: `WorkerPool.start` restricted to one market —
idempotent per market. -/
def startMarket (p : WorkerPool) (m : String) : WorkerPool :=
  if m ∈ p.running then p else { running := p.running ++ [m] }

/-! ## Helper lemmas -/

/-- Mapping an id-replacement over a list without a match is the identity. -/
theorem updateTrade_no_match (ts : List TradeData) (tr : TradeData)
    (h : ∀ t ∈ ts, t.id ≠ tr.id) : updateTrade ts tr = ts := by
  unfold updateTrade
  rw [List.map_congr_left fun t ht => if_neg (h t ht)]
  exact List.map_id ts

/-- Mapping a market-replacement over a list without a match is the identity. -/
theorem updateMarket_no_match (ms : List MarketData) (mk : MarketData)
    (h : ∀ m ∈ ms, m.market ≠ mk.market) : updateMarket ms mk = ms := by
  unfold updateMarket
  rw [List.map_congr_left fun m hm => if_neg (h m hm)]
  exact List.map_id ms

/-- One fill step keeps the held quantity nonnegative. -/
theorem fillStep_nonneg (e : PortfolioEntry) (f : Fill)
    (he : 0 ≤ e.quantity_held) (hq : 0 ≤ f.quantity) :
    0 ≤ (fillStep e f).quantity_held := by
  obtain ⟨s, p, q⟩ := f
  cases s with
  | buy =>
      simp only [fillStep, applyFill]
      exact add_nonneg he hq
  | sell =>
      simp only [fillStep, applyFill]
      by_cases h : e.quantity_held < q
      · simp [h, he]
      · simp only [h, if_false]
        simpa using sub_nonneg.mpr (not_lt.mp h)

/-- One admission attempt keeps `calls_in_window ≤ max_calls_per_window`
and does not change the ceiling. -/
theorem tryAdmit_preserves (W : ℕ) (b : RateBudget) (now : ℕ)
    (h : b.calls_in_window ≤ b.max_calls_per_window) :
    (tryAdmit W b now).2.calls_in_window ≤ (tryAdmit W b now).2.max_calls_per_window := by
  unfold tryAdmit
  dsimp only
  split_ifs with h1 h2 h2 <;> simp_all <;> omega

/-- One drained protected section keeps all locks free and the
acquire/release counters balanced. -/
theorem withLock_step_free (st : LockState) (c : LockCat) (ex : SectionExit)
    (hfree : ∀ c2, st.held c2 = false) (hbal : st.acquired = st.released) :
    (∀ c2, (withLock st c ex).1.held c2 = false) ∧
      (withLock st c ex).1.acquired = (withLock st c ex).1.released := by
  constructor
  · intro c2
    simp only [withLock, releaseLock, acquireLock]
    by_cases h : c2 = c
    · simp [h]
    · simp [h, hfree c2]
  · simp [withLock, releaseLock, acquireLock, hbal]

/-! ## Claim theorems -/

/-- Claim C1: over every sequence of buy and sell fills run through the
ledger (failed fills leaving the entry unchanged), `quantity_held` stays
nonnegative in every reachable state; and `applyFill` on a sell whose
quantity exceeds the current `quantity_held` fails with
`InsufficientHoldings` and does not change the entry. -/
theorem applyFill_quantity_never_negative (e : PortfolioEntry) (fs : List Fill)
    (he : 0 ≤ e.quantity_held) (hf : ∀ f ∈ fs, 0 ≤ f.quantity) :
    0 ≤ (applyFills e fs).quantity_held ∧
      ∀ (e2 : PortfolioEntry) (f : Fill), f.side = Side.sell →
        e2.quantity_held < f.quantity →
          applyFill e2 f = Except.error LedgerError.insufficientHoldings ∧
          fillStep e2 f = e2 := by
  constructor
  · induction fs generalizing e with
    | nil => exact he
    | cons f fs ih =>
        have hq : 0 ≤ f.quantity := hf f (List.mem_cons_self f fs)
        have hf2 : ∀ g ∈ fs, 0 ≤ g.quantity := fun g hg => hf g (List.mem_cons_of_mem f hg)
        simpa [applyFills] using ih (fillStep e f) (fillStep_nonneg e f he hq) hf2
  · intro e2 f hs hlt
    obtain ⟨s, p, q⟩ := f
    cases hs
    constructor
    · simp [applyFill, hlt]
    · simp [fillStep, applyFill, hlt]

/-- Witness for C1: from an empty KRW-BTC entry, a buy of 2 then a sell of 3
leaves the quantity nonnegative (the oversized sell is rejected), and that
sell on a 2-unit entry fails with `InsufficientHoldings`. -/
theorem applyFill_quantity_never_negative_witness :
    0 ≤ (applyFills ⟨"KRW-BTC", 0, 0⟩
          [⟨Side.buy, 100, 2⟩, ⟨Side.sell, 110, 3⟩]).quantity_held ∧
    applyFill ⟨"KRW-BTC", 2, 100⟩ ⟨Side.sell, 110, 3⟩ =
      Except.error LedgerError.insufficientHoldings :=
  ⟨(applyFill_quantity_never_negative ⟨"KRW-BTC", 0, 0⟩
      [⟨Side.buy, 100, 2⟩, ⟨Side.sell, 110, 3⟩] (by decide) (by decide)).1,
   ((applyFill_quantity_never_negative ⟨"KRW-BTC", 2, 100⟩ [] (by decide)
      (by simp)).2 ⟨"KRW-BTC", 2, 100⟩ ⟨Side.sell, 110, 3⟩ rfl (by decide)).1⟩

/-- Claim C2: after every step of any sequence of admission attempts (an
arbitrary interleaving of any number of callers, serialized by the gate),
the `RateBudget` satisfies `calls_in_window ≤ max_calls_per_window`. -/
theorem rateBudget_window_invariant (W : ℕ) (b : RateBudget) (times : List ℕ)
    (h : b.calls_in_window ≤ b.max_calls_per_window) :
    (runAdmits W b times).calls_in_window ≤
      (runAdmits W b times).max_calls_per_window := by
  induction times generalizing b with
  | nil => exact h
  | cons t ts ih =>
      simpa [runAdmits] using ih (tryAdmit W b t).2 (tryAdmit_preserves W b t h)

/-- Witness for C2: a budget of 2 calls per window starting empty keeps its
invariant over five attempts at times 0, 0, 0, 1, 5 (window length 3). -/
theorem rateBudget_window_invariant_witness :
    (runAdmits 3 ⟨0, 0, 2⟩ [0, 0, 0, 1, 5]).calls_in_window ≤
      (runAdmits 3 ⟨0, 0, 2⟩ [0, 0, 0, 1, 5]).max_calls_per_window :=
  rateBudget_window_invariant 3 ⟨0, 0, 2⟩ [0, 0, 0, 1, 5] (by decide)

/-- Claim C3: an operation failing retryably on every attempt is attempted
exactly 3 times with a fixed 1-second delay between attempts and ends
tagged `api_exhausted`; an operation failing non-retryably on its first
attempt is attempted exactly once and the failure propagates. -/
theorem execute_retry_policy (op : ℕ → AttemptResult) :
    ((∀ k, op k = AttemptResult.retryableErr) →
        execute op = (3, [1, 1], ExecResult.apiExhausted)) ∧
    (op 1 = AttemptResult.nonRetryableErr →
        execute op = (1, [], ExecResult.failed)) := by
  constructor
  · intro h
    simp [execute, executeGo, h 1, h 2, h 3]
  · intro h
    simp [execute, executeGo, h]

/-- Witness for C3: the always-retryable operation is attempted 3 times,
sleeps twice for 1 second and ends `api_exhausted`; the always-non-retryable
operation is attempted once and fails. -/
theorem execute_retry_policy_witness :
    execute (fun _ => AttemptResult.retryableErr) =
        (3, [1, 1], ExecResult.apiExhausted) ∧
    execute (fun _ => AttemptResult.nonRetryableErr) =
        (1, [], ExecResult.failed) :=
  ⟨(execute_retry_policy fun _ => AttemptResult.retryableErr).1 fun _ => rfl,
   (execute_retry_policy fun _ => AttemptResult.nonRetryableErr).2 rfl⟩

/-- Claim C4: every `withLock` acquisition is released exactly once on every
exit path (the acquire and release counters each advance by one and the
lock ends free), and after the pool drains the pending protected sections
on `stop()` no lock is held and every acquisition has been matched by a
release. -/
theorem withLock_released_once_and_stop_free (s : LockState) (c : LockCat)
    (ex : SectionExit) (secs : List (LockCat × SectionExit))
    (hfree : ∀ c2, s.held c2 = false) (hbal : s.acquired = s.released) :
    ((withLock s c ex).1.acquired = s.acquired + 1 ∧
      (withLock s c ex).1.released = s.released + 1 ∧
      (withLock s c ex).1.held c = false ∧
      (withLock s c ex).2 = ex) ∧
    ((∀ c2, (runSections s secs).held c2 = false) ∧
      (runSections s secs).acquired = (runSections s secs).released) := by
  constructor
  · refine ⟨rfl, rfl, ?_, rfl⟩
    simp [withLock, releaseLock]
  · induction secs generalizing s with
    | nil => exact ⟨hfree, hbal⟩
    | cons p ps ih =>
        have h := withLock_step_free s p.1 p.2 hfree hbal
        simpa [runSections] using ih (withLock s p.1 p.2).1 h.1 h.2

/-- Witness for C4: from the all-free lock state, a cancelled `buy` section
and a failing `sell` section each release what they acquired, and the
drained state holds no lock with balanced counters. -/
theorem withLock_released_once_and_stop_free_witness :
    (withLock ⟨fun _ => false, 0, 0⟩ LockCat.buy SectionExit.cancelled).1.released = 0 + 1 ∧
    (runSections ⟨fun _ => false, 0, 0⟩
        [(LockCat.buy, SectionExit.cancelled),
         (LockCat.sell, SectionExit.failure)]).acquired =
      (runSections ⟨fun _ => false, 0, 0⟩
        [(LockCat.buy, SectionExit.cancelled),
         (LockCat.sell, SectionExit.failure)]).released := by
  have h := withLock_released_once_and_stop_free ⟨fun _ => false, 0, 0⟩
    LockCat.buy SectionExit.cancelled
    [(LockCat.buy, SectionExit.cancelled), (LockCat.sell, SectionExit.failure)]
    (fun _ => rfl) rfl
  exact ⟨h.1.2.1, h.2.2⟩

/-- Claim C5: with separated thresholds (`sell_threshold < buy_threshold`,
as the configured defaults 0.35 < 0.65), the deciding step yields a buy
intent iff `strength ≥ buy_threshold` with no or a partial position, a sell
intent iff `strength ≤ sell_threshold` with a position, and otherwise no
intent; and the defaults of `application.yml.bak` are 0.65 and 0.35. -/
theorem decideIntent_thresholds (cfg : StrategyConfig) (s : ℚ)
    (pos : PositionState) (hsep : cfg.sell_threshold < cfg.buy_threshold) :
    (decideIntent cfg s pos = some Side.buy ↔
        cfg.buy_threshold ≤ s ∧ (pos = .noPos ∨ pos = .partialPos)) ∧
    (decideIntent cfg s pos = some Side.sell ↔
        s ≤ cfg.sell_threshold ∧ pos ≠ .noPos) ∧
    (decideIntent cfg s pos = none ↔
        ¬(cfg.buy_threshold ≤ s ∧ (pos = .noPos ∨ pos = .partialPos)) ∧
        ¬(s ≤ cfg.sell_threshold ∧ pos ≠ .noPos)) ∧
    defaultStrategy.buy_threshold = 65 / 100 ∧
    defaultStrategy.sell_threshold = 35 / 100 := by
  refine ⟨?_, ?_, ?_, rfl, rfl⟩ <;>
    · unfold decideIntent
      split_ifs with h1 h2 <;> simp_all <;> intros <;> linarith

/-- Witness for C5: with the configured defaults, strength 0.7 with no
position yields a buy intent. -/
theorem decideIntent_thresholds_witness :
    decideIntent defaultStrategy (7 / 10) PositionState.noPos = some Side.buy :=
  (decideIntent_thresholds defaultStrategy (7 / 10) PositionState.noPos
      (by norm_num [defaultStrategy])).1.mpr
    ⟨by norm_num [defaultStrategy], Or.inl rfl⟩

/-- Counterexample for C6: a failed trade event is omitted from the
active-trades view, not shown with a failed state — the `ActiveTrades`
handler removes the order with id `t1` outright, leaving an empty view. -/
theorem handleTradeData_failed_omitted_cex :
    handleTradeData [⟨"t1", "KRW-BTC", 100, "buy", "holding"⟩]
        ⟨"t1", "KRW-BTC", 100, "buy", "failed"⟩ = [] ∧
      ¬ ∃ t ∈ handleTradeData [⟨"t1", "KRW-BTC", 100, "buy", "holding"⟩]
          ⟨"t1", "KRW-BTC", 100, "buy", "failed"⟩, t.id = "t1" := by
  constructor
  · rfl
  · rintro ⟨t, ht, -⟩
    simp [handleTradeData, removeTrade] at ht

/-- Claim C6 as amended: when an order's processing fails, the
`ActiveTrades` handler does not keep or mark it — it removes the order from
the active-trades view exactly as it does a completed one, so no entry with
the failed order's id remains in the view. -/
theorem handleTradeData_failed_removed (l : List TradeData) (d : TradeData)
    (h : d.status = "failed") :
    (handleTradeData l d).all (fun t => t.id ≠ d.id) = true := by
  simp only [handleTradeData, h, or_true, if_true, removeTrade]
  simp [List.all_eq_true, List.mem_filter]

/-- Witness for the amended C6: processing the failed `t1` event leaves no
`t1` entry in the view. -/
theorem handleTradeData_failed_removed_witness :
    (handleTradeData [⟨"t1", "KRW-BTC", 100, "buy", "holding"⟩]
        ⟨"t1", "KRW-BTC", 100, "buy", "failed"⟩).all
      (fun t => t.id ≠ "t1") = true :=
  handleTradeData_failed_removed [⟨"t1", "KRW-BTC", 100, "buy", "holding"⟩]
    ⟨"t1", "KRW-BTC", 100, "buy", "failed"⟩ rfl

/-- Claim C7: `addTrade` (the store's realization of `recordTrade`) appends
exactly one record — the list grows by one, every previously recorded trade
is unchanged at its position, and the new record sits at the end. -/
theorem addTrade_appends_one (l : List TradeData) (t : TradeData) :
    (addTrade l t).length = l.length + 1 ∧
      (addTrade l t).take l.length = l ∧
      (addTrade l t).getLast? = some t := by
  refine ⟨by simp [addTrade], ?_, ?_⟩
  · simp [addTrade, List.take_left]
  · simp [addTrade]

/-- Claim C8: `SocketService.connect` is a no-op on the service state when a
socket already exists, and the pool's `start` on an already-running market
leaves the pool unchanged. -/
theorem connect_and_start_idempotent :
    (∀ (s : SocketServiceState) (url : String) (c : SocketConn),
        s.socket = some c → SocketService.connect s url = s) ∧
    (∀ (p : WorkerPool) (m : String), m ∈ p.running → startMarket p m = p) := by
  constructor
  · intro s url c h
    unfold SocketService.connect
    rw [h]
  · intro p m h
    simp [startMarket, h]

/-- Witness for C8: connecting while a socket to localhost is open changes
nothing, and starting the already-running KRW-BTC market changes nothing. -/
theorem connect_and_start_idempotent_witness :
    SocketService.connect
        ⟨some ⟨"ws://localhost:8000", ⟨true, 5, 1000⟩⟩, ["trade"]⟩ "ws://other" =
      ⟨some ⟨"ws://localhost:8000", ⟨true, 5, 1000⟩⟩, ["trade"]⟩ ∧
    startMarket ⟨["KRW-BTC"]⟩ "KRW-BTC" = ⟨["KRW-BTC"]⟩ :=
  ⟨connect_and_start_idempotent.1 _ "ws://other" ⟨"ws://localhost:8000", ⟨true, 5, 1000⟩⟩ rfl,
   connect_and_start_idempotent.2 ⟨["KRW-BTC"]⟩ "KRW-BTC" (by decide)⟩

/-- Claim C9: the dashboard classifies signal strength with hard-coded
cutoffs — label `강력 매수` (strong buy) and colour green exactly when
`signal_strength ≥ 0.7`, label `강력 매도` (strong sell) and colour red
exactly when `signal_strength ≤ 0.3`, and label `중립` (neutral) with
colour yellow otherwise — and the cutoffs differ from the configured
buy/sell thresholds 0.65 and 0.35. -/
theorem signal_classification (s : ℚ) :
    (signalLabel s = "강력 매수" ↔ 7 / 10 ≤ s) ∧
    (signalColor s = "green" ↔ 7 / 10 ≤ s) ∧
    (signalLabel s = "강력 매도" ↔ s ≤ 3 / 10) ∧
    (signalColor s = "red" ↔ s ≤ 3 / 10) ∧
    (signalLabel s = "중립" ↔ 3 / 10 < s ∧ s < 7 / 10) ∧
    (signalColor s = "yellow" ↔ 3 / 10 < s ∧ s < 7 / 10) ∧
    defaultStrategy.buy_threshold ≠ 7 / 10 ∧
    defaultStrategy.sell_threshold ≠ 3 / 10 := by
  have hbt : defaultStrategy.buy_threshold ≠ 7 / 10 := by norm_num [defaultStrategy]
  have hst : defaultStrategy.sell_threshold ≠ 3 / 10 := by norm_num [defaultStrategy]
  unfold signalLabel signalColor
  split_ifs with h1 h2 <;>
    refine ⟨?_, ?_, ?_, ?_, ?_, ?_, hbt, hst⟩ <;>
      simp_all <;> linarith

/-- Claim C10: `updateMarket` (and likewise `updateTrade`) never inserts —
with no element matching the key the list is exactly unchanged — and when
the match is unique, exactly the matching element is replaced and every
other element is unchanged. -/
theorem updateMarket_updateTrade_frame (ms : List MarketData) (mk : MarketData)
    (ts : List TradeData) (tr : TradeData) :
    ((∀ m ∈ ms, m.market ≠ mk.market) → updateMarket ms mk = ms) ∧
    (∀ l1 m l2, ms = l1 ++ m :: l2 → m.market = mk.market →
        (∀ m2 ∈ l1, m2.market ≠ mk.market) →
        (∀ m2 ∈ l2, m2.market ≠ mk.market) →
        updateMarket ms mk = l1 ++ mk :: l2) ∧
    ((∀ t ∈ ts, t.id ≠ tr.id) → updateTrade ts tr = ts) ∧
    (∀ l1 t l2, ts = l1 ++ t :: l2 → t.id = tr.id →
        (∀ t2 ∈ l1, t2.id ≠ tr.id) →
        (∀ t2 ∈ l2, t2.id ≠ tr.id) →
        updateTrade ts tr = l1 ++ tr :: l2) := by
  refine ⟨updateMarket_no_match ms mk, ?_, updateTrade_no_match ts tr, ?_⟩
  · intro l1 m l2 hs hm h1 h2
    subst hs
    unfold updateMarket
    rw [List.map_append, List.map_cons, if_pos hm]
    have e1 := updateMarket_no_match l1 mk h1
    have e2 := updateMarket_no_match l2 mk h2
    unfold updateMarket at e1 e2
    rw [e1, e2]
  · intro l1 t l2 hs ht h1 h2
    subst hs
    unfold updateTrade
    rw [List.map_append, List.map_cons, if_pos ht]
    have e1 := updateTrade_no_match l1 tr h1
    have e2 := updateTrade_no_match l2 tr h2
    unfold updateTrade at e1 e2
    rw [e1, e2]

/-- Witness for C10: on a two-market list, updating with an unknown market
key changes nothing, and updating market B replaces exactly B; likewise for
a two-trade list by id. -/
theorem updateMarket_updateTrade_frame_witness :
    updateMarket [⟨"A", 1, 0, 0, 0⟩, ⟨"B", 2, 0, 0, 0⟩] ⟨"C", 9, 0, 0, 0⟩ =
        [⟨"A", 1, 0, 0, 0⟩, ⟨"B", 2, 0, 0, 0⟩] ∧
    updateMarket [⟨"A", 1, 0, 0, 0⟩, ⟨"B", 2, 0, 0, 0⟩] ⟨"B", 9, 0, 0, 0⟩ =
        [⟨"A", 1, 0, 0, 0⟩, ⟨"B", 9, 0, 0, 0⟩] ∧
    updateTrade [⟨"t1", "A", 1, "buy", "holding"⟩] ⟨"t2", "A", 2, "buy", "buying"⟩ =
        [⟨"t1", "A", 1, "buy", "holding"⟩] ∧
    updateTrade [⟨"t1", "A", 1, "buy", "holding"⟩] ⟨"t1", "A", 2, "buy", "selling"⟩ =
        [⟨"t1", "A", 2, "buy", "selling"⟩] :=
  ⟨(updateMarket_updateTrade_frame [⟨"A", 1, 0, 0, 0⟩, ⟨"B", 2, 0, 0, 0⟩]
      ⟨"C", 9, 0, 0, 0⟩ [] ⟨"", "", 0, "", ""⟩).1 (by decide),
   (updateMarket_updateTrade_frame [⟨"A", 1, 0, 0, 0⟩, ⟨"B", 2, 0, 0, 0⟩]
      ⟨"B", 9, 0, 0, 0⟩ [] ⟨"", "", 0, "", ""⟩).2.1
      [⟨"A", 1, 0, 0, 0⟩] ⟨"B", 2, 0, 0, 0⟩ [] rfl rfl (by decide) (by decide),
   (updateMarket_updateTrade_frame [] ⟨"", 0, 0, 0, 0⟩
      [⟨"t1", "A", 1, "buy", "holding"⟩] ⟨"t2", "A", 2, "buy", "buying"⟩).2.2.1
      (by decide),
   (updateMarket_updateTrade_frame [] ⟨"", 0, 0, 0, 0⟩
      [⟨"t1", "A", 1, "buy", "holding"⟩] ⟨"t1", "A", 2, "buy", "selling"⟩).2.2.2
      [] ⟨"t1", "A", 1, "buy", "holding"⟩ [] rfl rfl (by decide) (by decide)⟩
